import Mathlib

/-!
Verification of the RantVent audio post-processing pipeline.

Shallow embedding of the pipeline code:
- text is modelled as lists of characters (`Str`);
- Python's `json.loads` is modelled as an oracle producing an optional
  `PyJson` value (`none` models a `json.JSONDecodeError`);
- the filesystem is an association list from paths to file metadata;
- external network calls (the genai client) are modelled by environment
  records carrying the outcome of each call, and every model returns the
  list of external events it performed, so "no network call" is the
  statement that the event list is empty;
- Python exceptions are values of `PyErr`: distinct exception classes (or
  distinct messages of the same class) map to distinct constructors.
-/

/-- Text, modelled as a list of characters (Python `str`). -/
abbrev Str := List Char

/-- Python exception outcomes relevant to the pipeline.  Constructors note
the Python exception they model; `runtimeUnavailable` and
`runtimeEmptyResponse` are both `RuntimeError` in Python but carry distinct
messages, hence distinct constructors here. -/
inductive PyErr where
  /-- `TypeError` (e.g. calling a function with the wrong number of arguments). -/
  | typeError
  /-- `ValueError`. -/
  | valueError
  /-- `FileNotFoundError`. -/
  | fileNotFound
  /-- `PermissionError`. -/
  | permissionError
  /-- `RuntimeError("GEMINI_API_KEY is not configured. Gemini service is unavailable.")`. -/
  | runtimeUnavailable
  /-- `RuntimeError("No response from Gemini")`. -/
  | runtimeEmptyResponse
  /-- `AttributeError` (method lookup on a value of the wrong type). -/
  | attributeError
  /-- `IndexError` (list index out of range). -/
  | indexError
  /-- Any undistinguished error raised inside the audio libraries
  (pydub decode errors, parselmouth/praat errors, ffmpeg failures). -/
  | libraryError
deriving DecidableEq

/-- Characters Python's `str.strip()` removes (ASCII whitespace). -/
def isPySpace (c : Char) : Bool :=
  c = ' ' ∨ c = '\t' ∨ c = '\n' ∨ c = '\r' ∨ c = '\x0b' ∨ c = '\x0c'

/-- Python `str.strip()` on ASCII text: drop leading and trailing whitespace. -/
def pyStrip (s : Str) : Str :=
  ((s.dropWhile isPySpace).reverse.dropWhile isPySpace).reverse

/-- ASCII lower-casing of one character (model of `str.lower()` per character). -/
def asciiLower (c : Char) : Char :=
  if 'A' ≤ c ∧ c ≤ 'Z' then Char.ofNat (c.toNat + 32) else c

/-- ASCII upper-casing of one character (model of `str.upper()` per character). -/
def asciiUpper (c : Char) : Char :=
  if 'a' ≤ c ∧ c ≤ 'z' then Char.ofNat (c.toNat - 32) else c

/-- Python `str.lower()` on ASCII text. -/
def pyLower (s : Str) : Str := s.map asciiLower

/-- Python `str.upper()` on ASCII text. -/
def pyUpper (s : Str) : Str := s.map asciiUpper

/-- Characters Python's `str.splitlines()` treats as line boundaries
(the ASCII ones: LF, CR, VT, FF; CRLF counts as a single boundary). -/
def isLineBreak (c : Char) : Bool :=
  c = '\n' ∨ c = '\r' ∨ c = '\x0b' ∨ c = '\x0c'

/-- Worker for `splitlines`: `acc` is the reversed current line; a CR
followed by an LF is consumed as one boundary. -/
def splitlinesAux : Str → Str → List Str
  | [], acc => if acc.isEmpty then [] else [acc.reverse]
  | [c1], acc =>
      if isLineBreak c1 then [acc.reverse] else [(c1 :: acc).reverse]
  | c1 :: c2 :: rest, acc =>
      if c1 = '\r' ∧ c2 = '\n' then acc.reverse :: splitlinesAux rest []
      else if isLineBreak c1 then acc.reverse :: splitlinesAux (c2 :: rest) []
      else splitlinesAux (c2 :: rest) (c1 :: acc)

/-- Python `str.splitlines()` on ASCII text: no trailing empty line when the
text ends in a line boundary. -/
def splitlines (s : Str) : List Str := splitlinesAux s []

/-- Python JSON values, the possible results of `json.loads`. -/
inductive PyJson where
  | jnull
  | jbool (b : Bool)
  | jnum (n : Int)
  | jstr (s : Str)
  | jarr (elems : List PyJson)
  | jobj (fields : List (Str × PyJson))

/-- Whether a JSON value is a string (Python `str`). -/
def PyJson.isStr : PyJson → Bool
  | .jstr _ => true
  | _ => false

/-- Python `dict.get` on the fields of a parsed JSON object, without default. -/
def jsonGet (fields : List (Str × PyJson)) (key : Str) : Option PyJson :=
  match fields with
  | [] => none
  | (k, v) :: rest => if k = key then some v else jsonGet rest key

/-- The four JSON keys of the primary-mode response. -/
def kTRANSCRIPT : Str := "TRANSCRIPT".data
def kSUMMARY : Str := "SUMMARY".data
def kTLDR : Str := "TLDR".data
def kLANGUAGE : Str := "LANGUAGE".data

/-- The key of the sentiment-mode response. -/
def kSENTIMENT : Str := "SENTIMENT".data

/-- The two valid sentiment labels. -/
def kINFAVOR : Str := "IN_FAVOR".data
def kAGAINST : Str := "AGAINST".data

/-- The result record built by `GeminiService.parse_output` (the local
`Result` class: four text fields, each defaulting to the empty string). -/
structure GeminiResult where
  transcript : Str
  summary : Str
  tldr : Str
  language : Str
deriving DecidableEq

/-- `data.get(key, "").strip()` in the JSON branch of `parse_output`:
a missing key yields the empty string; a present string value is stripped;
`.strip()` on a non-string value raises `AttributeError` (uncaught). -/
def getStrField (fields : List (Str × PyJson)) (key : Str) : Except PyErr Str :=
  match jsonGet fields key with
  | none => Except.ok []
  | some (PyJson.jstr s) => Except.ok (pyStrip s)
  | some _ => Except.error PyErr.attributeError

/-- The four field keys of the plain-text fallback block. -/
inductive FieldKey where
  | tK | sK | dK | lK
deriving DecidableEq

/-- The mutable `block` dict of the fallback parser. -/
structure LineBlock where
  transcript : Str
  summary : Str
  tldr : Str
  language : Str
deriving DecidableEq

/-- The empty `block` the fallback parser starts from. -/
def emptyBlock : LineBlock := ⟨[], [], [], []⟩

/-- `block[current_key] += line + " "` for one key. -/
def blockAppend (k : FieldKey) (b : LineBlock) (line : Str) : LineBlock :=
  match k with
  | .tK => { b with transcript := b.transcript ++ line ++ [' '] }
  | .sK => { b with summary := b.summary ++ line ++ [' '] }
  | .dK => { b with tldr := b.tldr ++ line ++ [' '] }
  | .lK => { b with language := b.language ++ line ++ [' '] }

/-- One iteration of the fallback parser's `for line in raw.splitlines()`
loop: strip the line, skip it if empty, switch `current_key` on a section
marker, and otherwise append the line to the current section (ignoring it
when no marker has been seen yet). -/
def lineStep (st : Option FieldKey × LineBlock) (rawLine : Str) :
    Option FieldKey × LineBlock :=
  let line := pyStrip rawLine
  if line = [] then st
  else if line = "TRANSCRIPT:".data then (some FieldKey.tK, st.2)
  else if line = "SUMMARY:".data then (some FieldKey.sK, st.2)
  else if line = "TLDR:".data then (some FieldKey.dK, st.2)
  else if line = "LANGUAGE:".data then (some FieldKey.lK, st.2)
  else
    match st.1 with
    | some k => (some k, blockAppend k st.2 line)
    | none => st

/-- The plain-text fallback branch of `GeminiService.parse_output`: iterate
over the lines of the raw response, then strip each accumulated section. -/
def parseLinesFallback (raw : Str) : GeminiResult :=
  let st := (splitlines raw).foldl lineStep (none, emptyBlock)
  { transcript := pyStrip st.2.transcript
    summary := pyStrip st.2.summary
    tldr := pyStrip st.2.tldr
    language := pyStrip st.2.language }

/-- `GeminiService.parse_output`.  `decoded` is the outcome of
`json.loads` applied to the cleaned raw text (`none` models
`json.JSONDecodeError`, which is the only exception the code catches before
falling back to line parsing).  A JSON payload that parses but is not an
object raises `AttributeError` from `data.get` (uncaught), and a
non-string field value raises `AttributeError` from `.strip()` (uncaught). -/
def parseOutput (decoded : Option PyJson) (raw : Str) : Except PyErr GeminiResult :=
  match decoded with
  | some (PyJson.jobj fields) =>
      match getStrField fields kTRANSCRIPT with
      | Except.error e => Except.error e
      | Except.ok t =>
        match getStrField fields kSUMMARY with
        | Except.error e => Except.error e
        | Except.ok s =>
          match getStrField fields kTLDR with
          | Except.error e => Except.error e
          | Except.ok d =>
            match getStrField fields kLANGUAGE with
            | Except.error e => Except.error e
            | Except.ok l => Except.ok ⟨t, s, d, l⟩
  | some _ => Except.error PyErr.attributeError
  | none => Except.ok (parseLinesFallback raw)

/-- `CommentGeminiService._parse_sentiment_output`.  `decoded` is the
outcome of `json.loads` on the cleaned raw text.  The code catches only
`json.JSONDecodeError` and `ValueError`, returning the default dict
`{"sentiment": "AGAINST"}` in those cases; `data.get` on a non-dict payload
and `.upper()` on a non-string value raise `AttributeError`, which is not
caught. -/
def parseSentimentOutput (decoded : Option PyJson) : Except PyErr Str :=
  match decoded with
  | none => Except.ok kAGAINST
  | some (PyJson.jobj fields) =>
      match jsonGet fields kSENTIMENT with
      | none => Except.ok kAGAINST
      | some (PyJson.jstr s) =>
          let u := pyUpper s
          if u = kINFAVOR ∨ u = kAGAINST then Except.ok u
          else Except.ok kAGAINST
      | some _ => Except.error PyErr.attributeError
  | some _ => Except.error PyErr.attributeError

deriving instance DecidableEq for Except

/-! ## Filesystem model -/

/-- Metadata of one file on durable storage. -/
structure FileMeta where
  size : Nat
  readable : Bool
deriving DecidableEq

/-- The filesystem: an association list from paths to file metadata.
The first binding for a path wins, so prepending models overwriting. -/
abbrev FS := List (Str × FileMeta)

/-- Look up a path. -/
def fsLookup (fs : FS) (p : Str) : Option FileMeta :=
  match fs with
  | [] => none
  | (q, m) :: rest => if q = p then some m else fsLookup rest p

/-- Write (create or overwrite) a file. -/
def fsInsert (fs : FS) (p : Str) (m : FileMeta) : FS := (p, m) :: fs

/-- `os.remove` preceded by an `os.path.exists` check: delete every binding
of the path (a no-op when the file is absent). -/
def fsRemove (fs : FS) (p : Str) : FS :=
  fs.filter (fun q => ¬ q.1 = p)

/-- The paths present in `newFs` but absent from `oldFs`: the files an
operation wrote. -/
def newPaths (oldFs newFs : FS) : List Str :=
  (newFs.map Prod.fst).filter (fun p => (fsLookup oldFs p).isNone)

/-! ## Voice Anonymizer (`app/services/voice_anonymizer.py`) -/

/-- Configuration of `VoiceAnonymizer`: `base_dir = media_root / subdir` and
the preset triples (pitch multiplier, frequency shift, time factor) parsed
from settings.  The triple values feed only the external praat calls, so
they are carried but never interpreted. -/
structure AnonConfig where
  baseDir : Str
  presets : List (Rat × Rat × Rat)

/-- `path.lower().endswith('.wav')`. -/
def endsWithDotWav (p : Str) : Bool :=
  ".wav".data.isSuffixOf (pyLower p)

/-- Drop the extension of one path component, as `pathlib` computes the
suffix: the part from the last dot, provided the stem before it is
nonempty (so a leading-dot name has no suffix). -/
def dropExt (name : Str) : Str :=
  let revn := name.reverse
  match revn.dropWhile (fun c => ¬ c = '.') with
  | [] => name
  | _ :: stemRev => if stemRev = [] then name else stemRev.reverse

/-- `str(Path(path).with_suffix('.wav'))`: replace the extension of the
last path component with `.wav`. -/
def withSuffixWav (p : Str) : Str :=
  let revp := p.reverse
  let compRev := revp.takeWhile (fun c => ¬ c = '/')
  let dirRev := revp.dropWhile (fun c => ¬ c = '/')
  dirRev.reverse ++ dropExt compRev.reverse ++ ".wav".data

/-- `VoiceAnonymizer.ensure_wav`: return the path unchanged when it already
ends in `.wav` (case-insensitively); otherwise decode with pydub and export
a sibling file with the `.wav` suffix.  pydub raises its own errors for a
missing, unreadable, or undecodable (e.g. zero-byte) file; these are
modelled by the undistinguished `libraryError`.  The function performs no
validation of its own. -/
def ensureWav (fs : FS) (path : Str) : FS × Except PyErr Str :=
  if endsWithDotWav path then (fs, Except.ok path)
  else
    match fsLookup fs path with
    | none => (fs, Except.error PyErr.libraryError)
    | some m =>
        if m.readable = false ∨ m.size = 0 then (fs, Except.error PyErr.libraryError)
        else
          let newPath := withSuffixWav path
          (fsInsert fs newPath ⟨m.size, true⟩, Except.ok newPath)

/-- `VoiceAnonymizer.apply_preset`: destructure `PRESETS[preset_index - 1]`
(Python list indexing, including negative-index wrap-around and
`IndexError` out of range), load the sound with parselmouth (praat raises
its own error for a missing/unreadable/empty file, modelled by
`libraryError`), run the praat manipulation chain, and save the result to
a fresh uuid-named file under the configured base directory. -/
def applyPreset (cfg : AnonConfig) (uuidHex : Str) (fs : FS) (wavPath : Str)
    (presetIndex : Int) : FS × Except PyErr Str :=
  let i : Int := presetIndex - 1
  let n : Int := Int.ofNat cfg.presets.length
  let j : Int := if i < 0 then i + n else i
  if j < 0 ∨ n ≤ j then (fs, Except.error PyErr.indexError)
  else
    match fsLookup fs wavPath with
    | none => (fs, Except.error PyErr.libraryError)
    | some m =>
        if m.readable = false ∨ m.size = 0 then (fs, Except.error PyErr.libraryError)
        else
          let outFile := cfg.baseDir ++ "/".data ++ uuidHex ++ "_anon.wav".data
          (fsInsert fs outFile ⟨m.size, true⟩, Except.ok outFile)

/-- `VoiceAnonymizer.anonymize`: preset 0 returns the input path verbatim
without touching the filesystem; a selector outside `[1, 6]` raises
`ValueError`; otherwise `ensure_wav` then `apply_preset`. -/
def anonymize (cfg : AnonConfig) (uuidHex : Str) (fs : FS) (inputPath : Str)
    (presetIndex : Int) : FS × Except PyErr Str :=
  if presetIndex = 0 then (fs, Except.ok inputPath)
  else if ¬ (1 ≤ presetIndex ∧ presetIndex ≤ 6) then (fs, Except.error PyErr.valueError)
  else
    match ensureWav fs inputPath with
    | (fs1, Except.error e) => (fs1, Except.error e)
    | (fs1, Except.ok wavPath) => applyPreset cfg uuidHex fs1 wavPath presetIndex

/-! ## Transcription Client (`app/services/gemini_service.py`,
`CommentGeminiService` in `app/services/comment_service.py`) -/

/-- Externally visible actions of one pipeline run. -/
inductive PipeEvent where
  /-- The orchestrator invoked the Transcription Client's primary mode. -/
  | primaryModeCall
  /-- The orchestrator invoked the Transcription Client's sentiment mode. -/
  | sentimentModeCall
  /-- The orchestrator invoked the Voice Anonymizer. -/
  | anonymizeCall
  /-- `client.files.upload` — the transient upload artifact is created. -/
  | upload (path : Str)
  /-- `client.models.generate_content` — the network inference call. -/
  | generate
  /-- `client.files.delete` — the transient upload artifact is released. -/
  | deleteArtifact
deriving DecidableEq

/-- Outcomes of the external genai calls made during one client invocation:
the upload outcome, the `generate_content` outcome (`ok none` models a
response with no usable text), and the `json.loads` oracle applied to the
cleaned response text. -/
structure GenaiEnv where
  uploadResult : Except PyErr Unit
  genResult : Except PyErr (Option Str)
  decodedOfText : Str → Option PyJson

/-- `os.path.abspath` relative to a current working directory
(`os.path.isabs` is "starts with a slash"). -/
def absPath (cwd p : Str) : Str :=
  if p.head? = some '/' then p else cwd ++ "/".data ++ p

/-- `GeminiService.transcribe_romanized_full`.  `available` is
`self.available` (`self.client` is non-`None` exactly when a key was
configured, so one flag suffices).  Checks, in source order: availability,
existence (`FileNotFoundError`), readability (`PermissionError`), zero
size (`ValueError`); then upload, generate (with artifact cleanup in the
`finally`), the empty-response check, and output parsing.  The second
component lists the external calls performed. -/
def transcribeRomanizedFull (available : Bool) (env : GenaiEnv) (cwd : Str)
    (fs : FS) (audioFilepath : Str) : Except PyErr GeminiResult × List PipeEvent :=
  if available = false then (Except.error PyErr.runtimeUnavailable, [])
  else
    let ap := absPath cwd audioFilepath
    match fsLookup fs ap with
    | none => (Except.error PyErr.fileNotFound, [])
    | some m =>
        if m.readable = false then (Except.error PyErr.permissionError, [])
        else if m.size = 0 then (Except.error PyErr.valueError, [])
        else
          match env.uploadResult with
          | Except.error e => (Except.error e, [PipeEvent.upload ap])
          | Except.ok _ =>
              match env.genResult with
              | Except.error e =>
                  (Except.error e, [PipeEvent.upload ap, PipeEvent.generate, PipeEvent.deleteArtifact])
              | Except.ok none =>
                  (Except.error PyErr.runtimeEmptyResponse,
                   [PipeEvent.upload ap, PipeEvent.generate, PipeEvent.deleteArtifact])
              | Except.ok (some text) =>
                  (parseOutput (env.decodedOfText text) text,
                   [PipeEvent.upload ap, PipeEvent.generate, PipeEvent.deleteArtifact])

/-- `CommentGeminiService.analyze_comment_sentiment`: availability check,
`os.path.abspath`, existence check (`FileNotFoundError`), upload and
generate (artifact cleanup in the `finally`), empty-response check, then
sentiment parsing.  Unlike the primary mode there is no readability or
size check.  `postSummary` only feeds the prompt text. -/
def analyzeCommentSentiment (available : Bool) (env : GenaiEnv) (cwd : Str)
    (fs : FS) (audioFilepath : Str) (postSummary : Str) :
    Except PyErr Str × List PipeEvent :=
  if available = false then (Except.error PyErr.runtimeUnavailable, [])
  else
    let ap := absPath cwd audioFilepath
    match fsLookup fs ap with
    | none => (Except.error PyErr.fileNotFound, [])
    | some _ =>
        match env.uploadResult with
        | Except.error e => (Except.error e, [PipeEvent.upload ap])
        | Except.ok _ =>
            match env.genResult with
            | Except.error e =>
                (Except.error e, [PipeEvent.upload ap, PipeEvent.generate, PipeEvent.deleteArtifact])
            | Except.ok none =>
                (Except.error PyErr.runtimeEmptyResponse,
                 [PipeEvent.upload ap, PipeEvent.generate, PipeEvent.deleteArtifact])
            | Except.ok (some text) =>
                (parseSentimentOutput (env.decodedOfText text),
                 [PipeEvent.upload ap, PipeEvent.generate, PipeEvent.deleteArtifact])
/-! ## Media records (`app/models/post.py`, `app/models/comment.py`) -/

/-- `PostStatus`. -/
inductive PostStatus where
  | processing | ready | failed
deriving DecidableEq

/-- `CommentStatusEnum`. -/
inductive CommentStatus where
  | processing | ready | failed
deriving DecidableEq

/-- The `Post` row fields the pipeline touches.  `audio_path` is
non-nullable in the schema but the orchestrator still guards on it, so it
is modelled as optional. -/
structure PostRec where
  status : PostStatus
  audioPath : Option Str
  transcript : Option Str
  summary : Option Str
  tldr : Option Str
  language : Option Str
deriving DecidableEq

/-- The `Comment` row fields the pipeline touches.  The sentiment is kept
as its label text; `CommentSentimentEnum(value)` succeeds exactly on the
two labels the parser can return. -/
structure CommentRec where
  status : CommentStatus
  sentiment : Option Str
  anonymizedAudioPath : Option Str
deriving DecidableEq

/-! ## Post pipeline (`process_post_audio` in `app/workers/tasks.py`,
`PostService` in `app/services/post_service.py`) -/

/-- `PostService.update_transcription`: persist the four text fields
together with the transition to `READY`. -/
def updateTranscription (post : PostRec) (t s d l : Str) : PostRec :=
  { post with
      transcript := some t
      summary := some s
      tldr := some d
      language := some l
      status := PostStatus.ready }

/-- `PostService.mark_failed`: transition to `FAILED`, leaving every other
field untouched. -/
def markFailed (post : PostRec) : PostRec :=
  { post with status := PostStatus.failed }

/-- `process_post_audio` (the Post orchestrator task).  `db` is the result
of re-fetching the record by id.  Steps: abort silently when the record is
missing or has no audio path; when the mode is non-zero run the anonymizer
and persist the new audio path immediately; run the primary-mode
transcription on the selected path (the source's `original_audio`
expression evaluates to the anonymized path when the mode is non-zero and
to the original path otherwise, which is exactly the selected path); on
success persist the four fields with `READY`, and on any exception mark
the record `FAILED`.  The task itself always returns normally. -/
def processPostAudio (available : Bool) (genv : GenaiEnv) (acfg : AnonConfig)
    (uuidHex : Str) (cwd : Str) (fs : FS) (db : Option PostRec)
    (anonymizeMode : Int) : Option PostRec × FS × List PipeEvent :=
  match db with
  | none => (none, fs, [])
  | some post =>
      match post.audioPath with
      | none => (some post, fs, [])
      | some audioPath0 =>
          let step1 : FS × Except PyErr (PostRec × Str) × List PipeEvent :=
            if anonymizeMode = 0 then (fs, Except.ok (post, audioPath0), [])
            else
              match anonymize acfg uuidHex fs audioPath0 anonymizeMode with
              | (fs1, Except.error e) => (fs1, Except.error e, [PipeEvent.anonymizeCall])
              | (fs1, Except.ok anonPath) =>
                  (fs1, Except.ok ({ post with audioPath := some anonPath }, anonPath),
                   [PipeEvent.anonymizeCall])
          match step1 with
          | (fs1, Except.error _, ev1) => (some (markFailed post), fs1, ev1)
          | (fs1, Except.ok (post1, selectedPath), ev1) =>
              match transcribeRomanizedFull available genv cwd fs1 selectedPath with
              | (Except.error _, ev2) =>
                  (some (markFailed post1), fs1, ev1 ++ PipeEvent.primaryModeCall :: ev2)
              | (Except.ok r, ev2) =>
                  (some (updateTranscription post1 r.transcript r.summary r.tldr r.language),
                   fs1, ev1 ++ PipeEvent.primaryModeCall :: ev2)

/-! ## Comment pipeline (`process_comment_audio` in `app/workers/tasks.py`,
`CommentService` in `app/services/comment_service.py`) -/

/-- `CommentService.mark_comment_failed`. -/
def markCommentFailed (c : CommentRec) : CommentRec :=
  { c with status := CommentStatus.failed }

/-- The body of `CommentService.process_comment_audio(self, comment,
original_audio_path)`: fetch the parent post; raise `ValueError` when the
post is missing or its summary is `None` or empty; run sentiment-mode
analysis; anonymize with the fixed preset 1; persist sentiment, anonymized
path and `READY`; delete the original audio best-effort.  The `except`
clause marks the comment `FAILED`, still deletes the original audio
best-effort, and re-raises.  The first component is the method's outcome
(`error` means the exception re-raised to the caller). -/
def commentServiceProcessCommentAudio (available : Bool) (senv : GenaiEnv)
    (acfg : AnonConfig) (uuidHex : Str) (cwd : Str) (parentPost : Option PostRec)
    (fs : FS) (comment : CommentRec) (originalAudioPath : Str) :
    Except PyErr Unit × CommentRec × FS × List PipeEvent :=
  let failWith (e : PyErr) (fs1 : FS) (ev : List PipeEvent) :
      Except PyErr Unit × CommentRec × FS × List PipeEvent :=
    (Except.error e, markCommentFailed comment, fsRemove fs1 originalAudioPath, ev)
  match parentPost with
  | none => failWith PyErr.valueError fs []
  | some post =>
      match post.summary with
      | none => failWith PyErr.valueError fs []
      | some summ =>
          if summ = [] then failWith PyErr.valueError fs []
          else
            match analyzeCommentSentiment available senv cwd fs originalAudioPath summ with
            | (Except.error e, ev) => failWith e fs (PipeEvent.sentimentModeCall :: ev)
            | (Except.ok sentiment, ev) =>
                match anonymize acfg uuidHex fs originalAudioPath 1 with
                | (fs1, Except.error e) =>
                    failWith e fs1 (PipeEvent.sentimentModeCall :: ev ++ [PipeEvent.anonymizeCall])
                | (fs1, Except.ok anonPath) =>
                    (Except.ok (),
                     { comment with
                         sentiment := some sentiment
                         anonymizedAudioPath := some anonPath
                         status := CommentStatus.ready },
                     fsRemove fs1 originalAudioPath,
                     PipeEvent.sentimentModeCall :: ev ++ [PipeEvent.anonymizeCall])

/-- Number of parameters (besides `self`) that
`CommentService.process_comment_audio` is defined with
(`app/services/comment_service.py`, lines 144-148). -/
def commentProcessArity : Nat := 2

/-- Number of positional arguments supplied to it by the background task
(`app/workers/tasks.py`, line 100). -/
def commentTaskCallArgs : Nat := 3

/-- `process_comment_audio` (the Comment orchestrator task).  Return
silently when the comment is missing; otherwise call the service method.
Python raises `TypeError` at the call site when the argument count does
not match the parameter count, before the method body runs; the task's
`except` clause catches any exception, marks the comment `FAILED`, and
returns without re-raising. -/
def processCommentAudioTask (available : Bool) (senv : GenaiEnv)
    (acfg : AnonConfig) (uuidHex : Str) (cwd : Str) (parentPost : Option PostRec)
    (fs : FS) (db : Option CommentRec) (originalAudioPath : Str)
    (anonymizeMode : Int) : Option CommentRec × FS × List PipeEvent :=
  match db with
  | none => (none, fs, [])
  | some comment =>
      let innerCall : Except PyErr Unit × CommentRec × FS × List PipeEvent :=
        if commentTaskCallArgs = commentProcessArity then
          commentServiceProcessCommentAudio available senv acfg uuidHex cwd
            parentPost fs comment originalAudioPath
        else (Except.error PyErr.typeError, comment, fs, [])
      match innerCall with
      | (Except.ok _, c2, fs2, ev) => (some c2, fs2, ev)
      | (Except.error _, c2, fs2, ev) => (some (markCommentFailed c2), fs2, ev)
/-! ## Auxiliary definitions for the statements -/

/-- Left half of `str.strip()`. -/
def stripLeft (s : Str) : Str := s.dropWhile isPySpace

/-- Right half of `str.strip()`. -/
def stripRight (s : Str) : Str := (s.reverse.dropWhile isPySpace).reverse

/-- The four section markers of the fallback line format. -/
def markerStrings : List Str :=
  ["TRANSCRIPT:".data, "SUMMARY:".data, "TLDR:".data, "LANGUAGE:".data]

/-- A line-oriented plain-text response carrying the four field values in
the fixed marker format. -/
def mkLineResponse (t s d l : Str) : Str :=
  "TRANSCRIPT:".data ++ '\n' :: t ++ '\n' :: "SUMMARY:".data ++ '\n' :: s
    ++ '\n' :: "TLDR:".data ++ '\n' :: d ++ '\n' :: "LANGUAGE:".data ++ '\n' :: l

/-- The structured (JSON) response carrying the four field values. -/
def mkJsonResponse (t s d l : Str) : PyJson :=
  PyJson.jobj
    [(kTRANSCRIPT, PyJson.jstr t), (kSUMMARY, PyJson.jstr s),
     (kTLDR, PyJson.jstr d), (kLANGUAGE, PyJson.jstr l)]

/-- Effect of one non-empty, non-marker content line on the block:
skip when the stripped line is empty, else append it with a space. -/
def padApp (k : FieldKey) (b : LineBlock) (v : Str) : LineBlock :=
  if pyStrip v = [] then b else blockAppend k b (pyStrip v)

/-- Whether the anonymize/transcribe sequence of the Post pipeline runs to
completion for a given audio path, mode and environment.  This predicate
does not mention the record at all — in particular not its status. -/
def postPipelineOutcome (available : Bool) (genv : GenaiEnv) (acfg : AnonConfig)
    (uuidHex : Str) (cwd : Str) (fs : FS) (audioPath0 : Str)
    (anonymizeMode : Int) : Bool :=
  match (if anonymizeMode = 0 then (fs, Except.ok audioPath0)
         else anonymize acfg uuidHex fs audioPath0 anonymizeMode) with
  | (_, Except.error _) => false
  | (fs1, Except.ok selectedPath) =>
      match (transcribeRomanizedFull available genv cwd fs1 selectedPath).1 with
      | Except.ok _ => true
      | Except.error _ => false

/-! # Theorems -/

/-! ## Basic string lemmas -/

theorem pyStrip_eq_stripRL (s : Str) : pyStrip s = stripRight (stripLeft s) := rfl

theorem stripLeft_eq_dropWhile (s : Str) : stripLeft s = s.dropWhile isPySpace := rfl

theorem stripRight_eq_rdropWhile (s : Str) : stripRight s = s.rdropWhile isPySpace := rfl

theorem stripRight_idem (s : Str) : stripRight (stripRight s) = stripRight s := by
  simp [stripRight_eq_rdropWhile, List.rdropWhile_idempotent]

theorem stripRight_append_space (s : Str) : stripRight (s ++ [' ']) = stripRight s := by
  simp [stripRight_eq_rdropWhile]
  exact List.rdropWhile_concat_pos _ _ _ rfl

theorem stripLeft_head (s : Str) (c : Char) (h : (stripLeft s).head? = some c) :
    isPySpace c = false := by
  induction s with
  | nil => simp [stripLeft] at h
  | cons a as ih =>
      by_cases ha : isPySpace a
      · exact ih (by simpa [stripLeft, ha] using h)
      · simp [stripLeft, List.dropWhile_cons, ha] at h
        simpa [← h] using ha

theorem stripRight_prefix (s : Str) : stripRight s <+: s := by
  simpa [stripRight_eq_rdropWhile] using List.rdropWhile_prefix (l := s) (p := isPySpace)

theorem pyStrip_append_space (s : Str) : pyStrip (pyStrip s ++ [' ']) = pyStrip s := by
  rw [pyStrip_eq_stripRL, pyStrip_eq_stripRL]
  rcases hu : stripRight (stripLeft s) with _ | ⟨c, u⟩
  · simp [stripLeft, stripRight, List.dropWhile, show isPySpace ' ' = true from rfl]
  · have hpre : stripRight (stripLeft s) <+: stripLeft s := stripRight_prefix _
    rw [hu] at hpre
    have hc : isPySpace c = false := by
      rcases hpre with ⟨tl, htl⟩
      exact stripLeft_head s c (by rw [← htl]; rfl)
    have hL : stripLeft ((c :: u) ++ [' ']) = (c :: u) ++ [' '] := by
      simp [stripLeft, List.dropWhile_cons, hc]
    rw [hL, stripRight_append_space]
    calc stripRight (c :: u) = stripRight (stripRight (stripLeft s)) := by rw [hu]
      _ = stripRight (stripLeft s) := stripRight_idem _
      _ = c :: u := hu
/-! ## C7: unconfigured client fails fast with no network call -/

/-- C7: for every input, if the Transcription Client is unconfigured
(`available == false`), invoking it — in primary mode or in sentiment
mode — fails synchronously with the service-unavailable error before any
network call is made: the event trace is empty, so no transient upload
artifact is ever created. -/
theorem unconfigured_client_fails_fast_no_network (env : GenaiEnv) (cwd : Str)
    (fs : FS) (audioFilepath postSummary : Str) :
    transcribeRomanizedFull false env cwd fs audioFilepath =
      (Except.error PyErr.runtimeUnavailable, []) ∧
    analyzeCommentSentiment false env cwd fs audioFilepath postSummary =
      (Except.error PyErr.runtimeUnavailable, []) :=
  ⟨rfl, rfl⟩

/-! ## C1: the comment task's three-argument call raises TypeError -/

/-- C1: the background task calls `CommentService.process_comment_audio`
with three arguments while the method accepts only two, so whenever the
comment exists the call raises `TypeError` before the method body runs:
the handler marks the comment `FAILED`, no sentiment analysis and no
anonymization happen (empty event trace), the original audio file is not
deleted (the filesystem is returned unchanged), and the task returns
normally instead of re-raising. -/
theorem commentTask_arity_mismatch_fails (available : Bool) (senv : GenaiEnv)
    (acfg : AnonConfig) (uuidHex cwd : Str) (parentPost : Option PostRec)
    (fs : FS) (comment : CommentRec) (originalAudioPath : Str)
    (anonymizeMode : Int) :
    commentTaskCallArgs ≠ commentProcessArity ∧
    processCommentAudioTask available senv acfg uuidHex cwd parentPost fs
        (some comment) originalAudioPath anonymizeMode =
      (some (markCommentFailed comment), fs, []) :=
  ⟨by decide, rfl⟩

/-! ## C6: missing parent post or summary → FAILED without sentiment mode -/

/-- C6: for every comment whose parent post is missing or has an empty or
absent summary, the comment pipeline terminates with the comment marked
`FAILED` and the Transcription Client's sentiment mode is never invoked
during that run. -/
theorem commentPipeline_no_summary_fails_without_sentiment (available : Bool)
    (senv : GenaiEnv) (acfg : AnonConfig) (uuidHex cwd : Str)
    (parentPost : Option PostRec) (fs : FS) (comment : CommentRec)
    (originalAudioPath : Str) (anonymizeMode : Int)
    (hpar : parentPost = none ∨ ∃ post, parentPost = some post ∧
      (post.summary = none ∨ post.summary = some [])) :
    ∃ c2, (processCommentAudioTask available senv acfg uuidHex cwd parentPost fs
        (some comment) originalAudioPath anonymizeMode).1 = some c2 ∧
      c2.status = CommentStatus.failed ∧
      PipeEvent.sentimentModeCall ∉
        (processCommentAudioTask available senv acfg uuidHex cwd parentPost fs
          (some comment) originalAudioPath anonymizeMode).2.2 := by
  refine ⟨markCommentFailed comment, rfl, rfl, ?_⟩
  show PipeEvent.sentimentModeCall ∉ ([] : List PipeEvent)
  simp

/-- Witness for C6 at a concrete input: the parent post is absent. -/
theorem commentPipeline_no_summary_fails_without_sentiment_w :
    ∃ c2, (processCommentAudioTask false ⟨Except.ok (), Except.ok none, fun _ => none⟩
        ⟨[], []⟩ [] [] none [] (some ⟨CommentStatus.processing, none, none⟩) [] 1).1 = some c2 ∧
      c2.status = CommentStatus.failed ∧
      PipeEvent.sentimentModeCall ∉
        (processCommentAudioTask false ⟨Except.ok (), Except.ok none, fun _ => none⟩
          ⟨[], []⟩ [] [] none [] (some ⟨CommentStatus.processing, none, none⟩) [] 1).2.2 :=
  commentPipeline_no_summary_fails_without_sentiment false
    ⟨Except.ok (), Except.ok none, fun _ => none⟩ ⟨[], []⟩ [] [] none []
    ⟨CommentStatus.processing, none, none⟩ [] 1 (Or.inl rfl)
/-! ## C4: sentiment parsing silently defaults instead of erroring -/

/-- Counterexample to C4: an unparseable sentiment response (a
`json.JSONDecodeError`, modelled by `none`) is returned as a *success*
carrying the default label `AGAINST`, and so is an out-of-set label such
as `NEUTRAL` — neither is surfaced as an error condition. -/
theorem parseSentimentOutput_defaults_counterexample :
    parseSentimentOutput none = Except.ok kAGAINST ∧
    parseSentimentOutput
        (some (PyJson.jobj [(kSENTIMENT, PyJson.jstr "NEUTRAL".data)])) =
      Except.ok kAGAINST :=
  ⟨rfl, by decide⟩

/-- C4 (amended): every successful sentiment parse is one of the two valid
labels, but an unparseable response (JSON decode failure) or a response
whose `SENTIMENT` string is outside the valid set is silently coerced to
the default label `AGAINST` and returned as a success, not as an error.
(The only error path is a payload that JSON-parses to a non-object, or a
non-string `SENTIMENT` value, which raises an uncaught `AttributeError`.) -/
theorem parseSentimentOutput_amended :
    (∀ d s, parseSentimentOutput d = Except.ok s → s = kINFAVOR ∨ s = kAGAINST) ∧
    parseSentimentOutput none = Except.ok kAGAINST ∧
    (∀ s, ¬ (pyUpper s = kINFAVOR ∨ pyUpper s = kAGAINST) →
      parseSentimentOutput (some (PyJson.jobj [(kSENTIMENT, PyJson.jstr s)])) =
        Except.ok kAGAINST) := by
  refine ⟨?_, rfl, ?_⟩
  · intro d s h
    match d with
    | none =>
        simp only [parseSentimentOutput, Except.ok.injEq] at h
        exact Or.inr h.symm
    | some PyJson.jnull => simp [parseSentimentOutput] at h
    | some (PyJson.jbool _) => simp [parseSentimentOutput] at h
    | some (PyJson.jnum _) => simp [parseSentimentOutput] at h
    | some (PyJson.jstr _) => simp [parseSentimentOutput] at h
    | some (PyJson.jarr _) => simp [parseSentimentOutput] at h
    | some (PyJson.jobj fields) =>
        simp only [parseSentimentOutput] at h
        rcases hg : jsonGet fields kSENTIMENT with _ | v
        · rw [hg] at h
          simp only [Except.ok.injEq] at h
          exact Or.inr h.symm
        · rw [hg] at h
          match v with
          | PyJson.jstr u =>
              by_cases hc : pyUpper u = kINFAVOR ∨ pyUpper u = kAGAINST
              · simp only [if_pos hc, Except.ok.injEq] at h
                cases hc with
                | inl h1 => exact Or.inl (h ▸ h1)
                | inr h1 => exact Or.inr (h ▸ h1)
              · simp only [if_neg hc, Except.ok.injEq] at h
                exact Or.inr h.symm
          | PyJson.jnull => simp at h
          | PyJson.jbool _ => simp at h
          | PyJson.jnum _ => simp at h
          | PyJson.jarr _ => simp at h
          | PyJson.jobj _ => simp at h
  · intro s hs
    simp only [parseSentimentOutput, jsonGet, if_true]
    rw [if_neg hs]

/-- Witness for C4 (amended) at concrete inputs. -/
theorem parseSentimentOutput_amended_w :
    (kAGAINST = kINFAVOR ∨ kAGAINST = kAGAINST) ∧
    parseSentimentOutput
        (some (PyJson.jobj [(kSENTIMENT, PyJson.jstr "maybe".data)])) =
      Except.ok kAGAINST :=
  ⟨parseSentimentOutput_amended.1 none kAGAINST rfl,
   parseSentimentOutput_amended.2.2 "maybe".data (by decide)⟩
/-! ## C2: no terminal-state guard in the Post orchestrator -/

/-- Counterexample to C2: a post already in the terminal state `FAILED`
(with its audio path still set, as it always is) is re-processed by a
second invocation of the orchestrator task; when the pipeline now succeeds
the record transitions `FAILED → READY`, changing a terminal status. -/
theorem postPipeline_terminal_not_stable_counterexample :
    ((processPostAudio true
        ⟨Except.ok (), Except.ok (some "x".data),
         fun _ => some (mkJsonResponse "t".data "s".data "d".data "l".data)⟩
        ⟨[], []⟩ [] []
        [("/a.wav".data, ⟨5, true⟩)]
        (some ⟨PostStatus.failed, some "/a.wav".data, none, none, none, none⟩)
        0).1.map PostRec.status) = some PostStatus.ready ∧
    PostStatus.ready ≠ PostStatus.failed :=
  ⟨rfl, by decide⟩

/-- C2 (amended): the Post orchestrator has no terminal-state guard.  When
the record still exists and has an audio path, a second invocation re-runs
the whole pipeline and the resulting status is `READY` exactly when the
anonymize/transcribe sequence succeeds and `FAILED` otherwise — determined
entirely by the run's outcome (`postPipelineOutcome`, which does not read
the record's status) and not by the prior terminal status.  The status is
left unchanged only when the record is missing or has no audio path, or
when the re-run's outcome happens to match the prior terminal state. -/
theorem postPipeline_rerun_ignores_terminal_status (available : Bool)
    (genv : GenaiEnv) (acfg : AnonConfig) (uuidHex cwd : Str) (fs : FS)
    (post : PostRec) (anonymizeMode : Int) (p : Str)
    (hap : post.audioPath = some p) :
    ∃ post2, (processPostAudio available genv acfg uuidHex cwd fs (some post)
        anonymizeMode).1 = some post2 ∧
      (post2.status = PostStatus.ready ∨ post2.status = PostStatus.failed) ∧
      (post2.status = PostStatus.ready ↔
        postPipelineOutcome available genv acfg uuidHex cwd fs p anonymizeMode = true) := by
  by_cases hm : anonymizeMode = 0
  · rcases h2 : transcribeRomanizedFull available genv cwd fs p with ⟨res, ev⟩
    cases res with
    | error e =>
        refine ⟨markFailed post, ?_, Or.inr rfl, ?_⟩
        · simp only [processPostAudio, hap, if_pos hm, h2]
        · simp only [postPipelineOutcome, if_pos hm, h2, markFailed]
          simp
    | ok r =>
        refine ⟨updateTranscription post r.transcript r.summary r.tldr r.language, ?_, Or.inl rfl, ?_⟩
        · simp only [processPostAudio, hap, if_pos hm, h2]
        · simp only [postPipelineOutcome, if_pos hm, h2, updateTranscription]
  · rcases ha : anonymize acfg uuidHex fs p anonymizeMode with ⟨fs1, ares⟩
    cases ares with
    | error e =>
        refine ⟨markFailed post, ?_, Or.inr rfl, ?_⟩
        · simp only [processPostAudio, hap, if_neg hm, ha]
        · simp only [postPipelineOutcome, if_neg hm, ha, markFailed]
          simp
    | ok anonPath =>
        rcases h2 : transcribeRomanizedFull available genv cwd fs1 anonPath with ⟨res, ev⟩
        cases res with
        | error e =>
            refine ⟨markFailed { post with audioPath := some anonPath }, ?_, Or.inr rfl, ?_⟩
            · simp only [processPostAudio, hap, if_neg hm, ha, h2]
            · simp only [postPipelineOutcome, if_neg hm, ha, h2, markFailed]
              simp
        | ok r =>
            refine ⟨updateTranscription { post with audioPath := some anonPath }
              r.transcript r.summary r.tldr r.language, ?_, Or.inl rfl, ?_⟩
            · simp only [processPostAudio, hap, if_neg hm, ha, h2]
            · simp only [postPipelineOutcome, if_neg hm, ha, h2, updateTranscription]

/-- Witness for C2 (amended) at a concrete input: a `READY` record whose
re-run fails (the service became unavailable), ending `FAILED`. -/
theorem postPipeline_rerun_ignores_terminal_status_w :
    ∃ post2, (processPostAudio false ⟨Except.ok (), Except.ok none, fun _ => none⟩
        ⟨[], []⟩ [] [] [("/a.wav".data, ⟨5, true⟩)]
        (some ⟨PostStatus.ready, some "/a.wav".data, some [], some [], some [], some []⟩)
        0).1 = some post2 ∧
      (post2.status = PostStatus.ready ∨ post2.status = PostStatus.failed) ∧
      (post2.status = PostStatus.ready ↔
        postPipelineOutcome false ⟨Except.ok (), Except.ok none, fun _ => none⟩
          ⟨[], []⟩ [] [] [("/a.wav".data, ⟨5, true⟩)] "/a.wav".data 0 = true) :=
  postPipeline_rerun_ignores_terminal_status false
    ⟨Except.ok (), Except.ok none, fun _ => none⟩ ⟨[], []⟩ [] []
    [("/a.wav".data, ⟨5, true⟩)]
    ⟨PostStatus.ready, some "/a.wav".data, some [], some [], some [], some []⟩
    0 "/a.wav".data rfl
/-! ## C3: FAILED keeps fields null, READY populates all four together -/

/-- C3: for a record entering the Post pipeline in `PROCESSING` with all
four content fields null, the run ends in a terminal state; if any step of
the anonymize/transcribe sequence raises, the record ends `FAILED` with
`transcript`/`summary`/`tldr`/`language` all still null, and on success it
ends `READY` with all four populated together. -/
theorem postPipeline_failure_containment (available : Bool) (genv : GenaiEnv)
    (acfg : AnonConfig) (uuidHex cwd : Str) (fs : FS) (post : PostRec)
    (anonymizeMode : Int) (p : Str)
    (hstat : post.status = PostStatus.processing)
    (ht : post.transcript = none) (hs : post.summary = none)
    (hd : post.tldr = none) (hl : post.language = none)
    (hap : post.audioPath = some p) :
    ∃ post2, (processPostAudio available genv acfg uuidHex cwd fs (some post)
        anonymizeMode).1 = some post2 ∧
      (post2.status = PostStatus.failed ∨ post2.status = PostStatus.ready) ∧
      (post2.status = PostStatus.failed →
        post2.transcript = none ∧ post2.summary = none ∧
        post2.tldr = none ∧ post2.language = none) ∧
      (post2.status = PostStatus.ready →
        post2.transcript.isSome ∧ post2.summary.isSome ∧
        post2.tldr.isSome ∧ post2.language.isSome) := by
  by_cases hm : anonymizeMode = 0
  · rcases h2 : transcribeRomanizedFull available genv cwd fs p with ⟨res, ev⟩
    cases res with
    | error e =>
        refine ⟨markFailed post, ?_, Or.inl rfl, fun _ => ?_, fun h => ?_⟩
        · simp only [processPostAudio, hap, if_pos hm, h2]
        · simp [markFailed, ht, hs, hd, hl]
        · simp [markFailed] at h
    | ok r =>
        refine ⟨updateTranscription post r.transcript r.summary r.tldr r.language,
          ?_, Or.inr rfl, fun h => ?_, fun _ => ?_⟩
        · simp only [processPostAudio, hap, if_pos hm, h2]
        · simp [updateTranscription] at h
        · simp [updateTranscription]
  · rcases ha : anonymize acfg uuidHex fs p anonymizeMode with ⟨fs1, ares⟩
    cases ares with
    | error e =>
        refine ⟨markFailed post, ?_, Or.inl rfl, fun _ => ?_, fun h => ?_⟩
        · simp only [processPostAudio, hap, if_neg hm, ha]
        · simp [markFailed, ht, hs, hd, hl]
        · simp [markFailed] at h
    | ok anonPath =>
        rcases h2 : transcribeRomanizedFull available genv cwd fs1 anonPath with ⟨res, ev⟩
        cases res with
        | error e =>
            refine ⟨markFailed { post with audioPath := some anonPath },
              ?_, Or.inl rfl, fun _ => ?_, fun h => ?_⟩
            · simp only [processPostAudio, hap, if_neg hm, ha, h2]
            · simp [markFailed, ht, hs, hd, hl]
            · simp [markFailed] at h
        | ok r =>
            refine ⟨updateTranscription { post with audioPath := some anonPath }
              r.transcript r.summary r.tldr r.language,
              ?_, Or.inr rfl, fun h => ?_, fun _ => ?_⟩
            · simp only [processPostAudio, hap, if_neg hm, ha, h2]
            · simp [updateTranscription] at h
            · simp [updateTranscription]

/-- Witness for C3 at a concrete input: a fresh `PROCESSING` record whose
anonymizer raises `ValueError` (out-of-range preset with a non-wav input
is not needed — an unavailable service suffices to exercise the failure
path). -/
theorem postPipeline_failure_containment_w :
    ∃ post2, (processPostAudio false ⟨Except.ok (), Except.ok none, fun _ => none⟩
        ⟨[], []⟩ [] [] [("/a.wav".data, ⟨5, true⟩)]
        (some ⟨PostStatus.processing, some "/a.wav".data, none, none, none, none⟩)
        0).1 = some post2 ∧
      (post2.status = PostStatus.failed ∨ post2.status = PostStatus.ready) ∧
      (post2.status = PostStatus.failed →
        post2.transcript = none ∧ post2.summary = none ∧
        post2.tldr = none ∧ post2.language = none) ∧
      (post2.status = PostStatus.ready →
        post2.transcript.isSome ∧ post2.summary.isSome ∧
        post2.tldr.isSome ∧ post2.language.isSome) :=
  postPipeline_failure_containment false
    ⟨Except.ok (), Except.ok none, fun _ => none⟩ ⟨[], []⟩ [] []
    [("/a.wav".data, ⟨5, true⟩)]
    ⟨PostStatus.processing, some "/a.wav".data, none, none, none, none⟩
    0 "/a.wav".data rfl rfl rfl rfl rfl rfl
/-! ## C9: primary-mode parsing — JSON first, tolerant fallback -/

theorem jsonGet_mem (fields : List (Str × PyJson)) (key : Str) (v : PyJson)
    (h : jsonGet fields key = some v) : (key, v) ∈ fields := by
  induction fields with
  | nil => simp [jsonGet] at h
  | cons p rest ih =>
      rcases p with ⟨k, w⟩
      by_cases hk : k = key
      · subst hk
        have h2 : w = v := by simpa [jsonGet] using h
        subst h2
        exact List.mem_cons_self _ _
      · simp only [jsonGet, if_neg hk] at h
        exact List.mem_cons_of_mem _ (ih h)

theorem getStrField_ok (fields : List (Str × PyJson)) (key : Str)
    (h : ∀ p ∈ fields, PyJson.isStr p.2 = true) :
    ∃ s, getStrField fields key = Except.ok s ∧
      (jsonGet fields key = none → s = []) := by
  rcases hg : jsonGet fields key with _ | v
  · exact ⟨[], by simp [getStrField, hg], fun _ => rfl⟩
  · have hv : PyJson.isStr v = true := h (key, v) (jsonGet_mem fields key v hg)
    match v, hv with
    | PyJson.jstr s, _ =>
        exact ⟨pyStrip s, by simp [getStrField, hg], by simp [hg]⟩

/-- C9: the primary-mode output parser attempts structured (JSON) parsing
first and consults the raw text for line parsing only when JSON decoding
fails (the structured branch is independent of the raw text); for a JSON
object whose present values are strings, the parse is a success even when
fields are missing, each absent field becoming the empty string; and when
JSON decoding fails the parser always succeeds with the line-marker
fallback result. -/
theorem parseOutput_tolerant (fields : List (Str × PyJson)) (raw raw2 : Str)
    (hstr : ∀ p ∈ fields, PyJson.isStr p.2 = true) :
    (∃ r, parseOutput (some (PyJson.jobj fields)) raw = Except.ok r ∧
      (jsonGet fields kTRANSCRIPT = none → r.transcript = []) ∧
      (jsonGet fields kSUMMARY = none → r.summary = []) ∧
      (jsonGet fields kTLDR = none → r.tldr = []) ∧
      (jsonGet fields kLANGUAGE = none → r.language = [])) ∧
    parseOutput (some (PyJson.jobj fields)) raw =
      parseOutput (some (PyJson.jobj fields)) raw2 ∧
    parseOutput none raw = Except.ok (parseLinesFallback raw) := by
  refine ⟨?_, rfl, rfl⟩
  obtain ⟨t, hto, htn⟩ := getStrField_ok fields kTRANSCRIPT hstr
  obtain ⟨s, hso, hsn⟩ := getStrField_ok fields kSUMMARY hstr
  obtain ⟨d, hdo, hdn⟩ := getStrField_ok fields kTLDR hstr
  obtain ⟨l, hlo, hln⟩ := getStrField_ok fields kLANGUAGE hstr
  refine ⟨⟨t, s, d, l⟩, ?_, htn, hsn, hdn, hln⟩
  simp only [parseOutput, hto, hso, hdo, hlo]

/-- Witness for C9 at a concrete input: an object carrying only `SUMMARY`. -/
theorem parseOutput_tolerant_w :
    (∃ r, parseOutput (some (PyJson.jobj [(kSUMMARY, PyJson.jstr "hi".data)]))
        "x".data = Except.ok r ∧
      (jsonGet [(kSUMMARY, PyJson.jstr "hi".data)] kTRANSCRIPT = none → r.transcript = []) ∧
      (jsonGet [(kSUMMARY, PyJson.jstr "hi".data)] kSUMMARY = none → r.summary = []) ∧
      (jsonGet [(kSUMMARY, PyJson.jstr "hi".data)] kTLDR = none → r.tldr = []) ∧
      (jsonGet [(kSUMMARY, PyJson.jstr "hi".data)] kLANGUAGE = none → r.language = [])) ∧
    parseOutput (some (PyJson.jobj [(kSUMMARY, PyJson.jstr "hi".data)])) "x".data =
      parseOutput (some (PyJson.jobj [(kSUMMARY, PyJson.jstr "hi".data)])) "y".data ∧
    parseOutput none "x".data = Except.ok (parseLinesFallback "x".data) :=
  parseOutput_tolerant [(kSUMMARY, PyJson.jstr "hi".data)] "x".data "y".data
    (by intro p hp; simp at hp; rw [hp]; rfl)
/-! ## Filesystem lemmas -/

theorem fsLookup_isSome_of_mem_keys (fs : FS) (p : Str)
    (h : p ∈ fs.map Prod.fst) : (fsLookup fs p).isSome = true := by
  induction fs with
  | nil => simp at h
  | cons qm rest ih =>
      rcases qm with ⟨q, m⟩
      by_cases hq : q = p
      · simp [fsLookup, hq]
      · simp only [List.map_cons, List.mem_cons] at h
        rcases h with h | h
        · exact absurd h.symm hq
        · simpa [fsLookup, hq] using ih h

theorem newPaths_insert_fresh (fs : FS) (out : Str) (mm : FileMeta)
    (hfresh : fsLookup fs out = none) :
    newPaths fs (fsInsert fs out mm) = [out] := by
  have h1 : ∀ a ∈ fs.map Prod.fst, ¬ ((fsLookup fs a).isNone = true) := by
    intro a ha hcon
    have h2 := fsLookup_isSome_of_mem_keys fs a ha
    rw [Option.isNone_iff_eq_none.mp hcon] at h2
    simp at h2
  simp only [newPaths, fsInsert, List.map_cons, List.filter_cons, hfresh]
  simp [List.filter_eq_nil_iff.mpr h1]

/-! ## C5: files written by one anonymize invocation -/

/-- Counterexample to C5: with a valid non-wav input (`a.mp3`) and preset
1, one `anonymize` invocation writes *two* new files — the transcoded
intermediate `a.wav`, placed next to the input rather than under the
configured output directory, and the anonymized output — so "writes
exactly one new file, freshly named under the configured output
directory" fails for non-wav containers. -/
theorem anonymize_nonwav_two_files_counterexample :
    (newPaths [("a.mp3".data, ⟨5, true⟩)]
      (anonymize ⟨"media/audio".data, List.replicate 6 (1, 1, 1)⟩ "u".data
        [("a.mp3".data, ⟨5, true⟩)] "a.mp3".data 1).1).length = 2 ∧
    "a.wav".data ∈ newPaths [("a.mp3".data, ⟨5, true⟩)]
      (anonymize ⟨"media/audio".data, List.replicate 6 (1, 1, 1)⟩ "u".data
        [("a.mp3".data, ⟨5, true⟩)] "a.mp3".data 1).1 ∧
    "media/audio/".data.isPrefixOf "a.wav".data = false := by decide
/-- C5 (amended): for a `.wav` input that exists, is readable and
non-empty, any preset in `[1, 6]` (with the six presets configured) makes
one `anonymize` invocation write exactly one new file, uuid-named under
the configured output directory (freshness of the uuid name is the
hypothesis `hfresh`); the input file is never overwritten, modified, or
deleted.  For other container formats an additional transcoded
intermediate `.wav` is written next to the input (see the counterexample). -/
theorem anonymize_wav_writes_one_fresh_file (cfg : AnonConfig) (uuidHex : Str)
    (fs : FS) (inputPath : Str) (presetIndex : Int) (m : FileMeta)
    (hw : endsWithDotWav inputPath = true)
    (hin : fsLookup fs inputPath = some m)
    (hread : m.readable = true) (hsz : m.size ≠ 0)
    (hp : 1 ≤ presetIndex ∧ presetIndex ≤ 6)
    (hpr : (6 : Int) ≤ Int.ofNat cfg.presets.length)
    (hfresh : fsLookup fs (cfg.baseDir ++ "/".data ++ uuidHex ++ "_anon.wav".data) = none) :
    anonymize cfg uuidHex fs inputPath presetIndex =
      (fsInsert fs (cfg.baseDir ++ "/".data ++ uuidHex ++ "_anon.wav".data) ⟨m.size, true⟩,
       Except.ok (cfg.baseDir ++ "/".data ++ uuidHex ++ "_anon.wav".data)) ∧
    newPaths fs (anonymize cfg uuidHex fs inputPath presetIndex).1 =
      [cfg.baseDir ++ "/".data ++ uuidHex ++ "_anon.wav".data] ∧
    (cfg.baseDir ++ "/".data).isPrefixOf
      (cfg.baseDir ++ "/".data ++ uuidHex ++ "_anon.wav".data) = true ∧
    cfg.baseDir ++ "/".data ++ uuidHex ++ "_anon.wav".data ≠ inputPath ∧
    fsLookup (anonymize cfg uuidHex fs inputPath presetIndex).1 inputPath = some m := by
  have h0 : ¬ presetIndex = 0 := by omega
  have hneq : cfg.baseDir ++ "/".data ++ uuidHex ++ "_anon.wav".data ≠ inputPath := by
    intro hcon
    rw [hcon, hin] at hfresh
    exact Option.noConfusion hfresh
  have hnlt : ¬ (presetIndex - 1 < 0) := by omega
  have hnge : ¬ (presetIndex - 1 < 0 ∨ Int.ofNat cfg.presets.length ≤ presetIndex - 1) := by
    push_neg
    exact ⟨by omega, by omega⟩
  have hbadm : ¬ (m.readable = false ∨ m.size = 0) := by
    rw [hread]
    simp [hsz]
  have hrun : anonymize cfg uuidHex fs inputPath presetIndex =
      (fsInsert fs (cfg.baseDir ++ "/".data ++ uuidHex ++ "_anon.wav".data) ⟨m.size, true⟩,
       Except.ok (cfg.baseDir ++ "/".data ++ uuidHex ++ "_anon.wav".data)) := by
    simp only [anonymize, if_neg h0, if_neg (not_not_intro hp), ensureWav, if_pos hw,
      applyPreset, if_neg hnlt, if_neg hnge, hin, if_neg hbadm]
  refine ⟨hrun, ?_, ?_, hneq, ?_⟩
  · rw [hrun]
    exact newPaths_insert_fresh fs _ _ hfresh
  · rw [List.isPrefixOf_iff_prefix]
    exact ⟨uuidHex ++ "_anon.wav".data, by simp⟩
  · rw [hrun]
    show fsLookup (fsInsert fs _ _) inputPath = some m
    simp only [fsInsert, fsLookup, if_neg hneq]
    exact hin

/-- Witness for C5 (amended) at a concrete input. -/
theorem anonymize_wav_writes_one_fresh_file_w :
    anonymize ⟨"media/audio".data, List.replicate 6 (1, 1, 1)⟩ "u".data
        [("a.wav".data, ⟨5, true⟩)] "a.wav".data 1 =
      (fsInsert [("a.wav".data, ⟨5, true⟩)]
        ("media/audio".data ++ "/".data ++ "u".data ++ "_anon.wav".data) ⟨5, true⟩,
       Except.ok ("media/audio".data ++ "/".data ++ "u".data ++ "_anon.wav".data)) ∧
    newPaths [("a.wav".data, ⟨5, true⟩)]
      (anonymize ⟨"media/audio".data, List.replicate 6 (1, 1, 1)⟩ "u".data
        [("a.wav".data, ⟨5, true⟩)] "a.wav".data 1).1 =
      ["media/audio".data ++ "/".data ++ "u".data ++ "_anon.wav".data] ∧
    ("media/audio".data ++ "/".data).isPrefixOf
      ("media/audio".data ++ "/".data ++ "u".data ++ "_anon.wav".data) = true ∧
    "media/audio".data ++ "/".data ++ "u".data ++ "_anon.wav".data ≠ "a.wav".data ∧
    fsLookup (anonymize ⟨"media/audio".data, List.replicate 6 (1, 1, 1)⟩ "u".data
        [("a.wav".data, ⟨5, true⟩)] "a.wav".data 1).1 "a.wav".data = some ⟨5, true⟩ :=
  anonymize_wav_writes_one_fresh_file ⟨"media/audio".data, List.replicate 6 (1, 1, 1)⟩
    "u".data [("a.wav".data, ⟨5, true⟩)] "a.wav".data 1 ⟨5, true⟩
    (by decide) (by decide) rfl (by decide) (by decide) (by decide) (by decide)
/-! ## C8: the anonymizer performs no typed input validation -/

/-- Counterexample to C8: with preset 0 and a path whose file does not
exist at all (empty filesystem), `anonymize` *succeeds*, returning the
input path verbatim — it raises no `SourceNotFound`-style typed error
(and in fact performs no input validation whatsoever). -/
theorem anonymize_missing_file_succeeds_counterexample :
    anonymize ⟨"media/audio".data, List.replicate 6 (1, 1, 1)⟩ "u".data []
        "missing.wav".data 0 = ([], Except.ok "missing.wav".data) := rfl

/-- C8 (amended): the anonymizer performs no input validation of its own.
For preset 0 it returns the input path without touching the filesystem at
all, whatever the file's state; for presets in `[1, 6]` a missing,
unreadable, or zero-byte input fails inside the underlying audio
libraries with an undistinguished error, not with typed
`SourceNotFound`/`SourceUnreadable`/`EmptySource` errors (the typed
missing/unreadable/empty checks live in the Transcription Client's
primary mode instead). -/
theorem anonymize_untyped_library_errors (cfg : AnonConfig) (uuidHex : Str)
    (fs : FS) (path : Str) (presetIndex : Int)
    (hp : 1 ≤ presetIndex ∧ presetIndex ≤ 6)
    (hpr : (6 : Int) ≤ Int.ofNat cfg.presets.length)
    (hbad : fsLookup fs path = none ∨
      ∃ m, fsLookup fs path = some m ∧ (m.readable = false ∨ m.size = 0)) :
    (∀ fs2 path2, anonymize cfg uuidHex fs2 path2 0 = (fs2, Except.ok path2)) ∧
    anonymize cfg uuidHex fs path presetIndex = (fs, Except.error PyErr.libraryError) := by
  have h0 : ¬ presetIndex = 0 := by omega
  have hnlt : ¬ (presetIndex - 1 < 0) := by omega
  have hnge : ¬ (presetIndex - 1 < 0 ∨ Int.ofNat cfg.presets.length ≤ presetIndex - 1) := by
    push_neg
    exact ⟨by omega, by omega⟩
  refine ⟨fun fs2 path2 => rfl, ?_⟩
  by_cases hw : endsWithDotWav path
  · rcases hbad with hnone | ⟨m, hm, hbadm⟩
    · simp only [anonymize, if_neg h0, if_neg (not_not_intro hp), ensureWav, if_pos hw,
        applyPreset, if_neg hnlt, if_neg hnge, hnone]
    · simp only [anonymize, if_neg h0, if_neg (not_not_intro hp), ensureWav, if_pos hw,
        applyPreset, if_neg hnlt, if_neg hnge, hm, if_pos hbadm]
  · rcases hbad with hnone | ⟨m, hm, hbadm⟩
    · simp only [anonymize, if_neg h0, if_neg (not_not_intro hp), ensureWav, if_neg hw, hnone]
    · simp only [anonymize, if_neg h0, if_neg (not_not_intro hp), ensureWav, if_neg hw,
        hm, if_pos hbadm]

/-- Witness for C8 (amended) at a concrete input: preset 3, missing file. -/
theorem anonymize_untyped_library_errors_w :
    (∀ fs2 path2, anonymize ⟨"media/audio".data, List.replicate 6 (1, 1, 1)⟩ "u".data
        fs2 path2 0 = (fs2, Except.ok path2)) ∧
    anonymize ⟨"media/audio".data, List.replicate 6 (1, 1, 1)⟩ "u".data
        [] "gone.mp3".data 3 = ([], Except.error PyErr.libraryError) :=
  anonymize_untyped_library_errors ⟨"media/audio".data, List.replicate 6 (1, 1, 1)⟩
    "u".data [] "gone.mp3".data 3 (by decide) (by decide) (Or.inl rfl)
/-! ## C10: line-marker fallback agrees with structured parsing -/

theorem splitlinesAux_append_nl (xs rest acc : Str)
    (h : ∀ c ∈ xs, isLineBreak c = false) :
    splitlinesAux (xs ++ '\n' :: rest) acc =
      (acc.reverse ++ xs) :: splitlinesAux rest [] := by
  induction xs generalizing acc with
  | nil =>
      cases rest with
      | nil => simp [splitlinesAux, show isLineBreak '\n' = true from by decide]
      | cons r rs =>
          have hcr : ¬ ('\n' = '\r' ∧ r = '\n') := fun hc => absurd hc.1 (by decide)
          simp [splitlinesAux, hcr, show isLineBreak '\n' = true from by decide]
  | cons x xs ih =>
      have hx : isLineBreak x = false := h x (List.mem_cons_self x xs)
      have hxs : ∀ c ∈ xs, isLineBreak c = false :=
        fun c hc => h c (List.mem_cons_of_mem x hc)
      have hxr : ¬ (x = '\r' ∧ (xs ++ '\n' :: rest).head! = '\n') := by
        intro hc
        rw [hc.1] at hx
        exact absurd hx (by decide)
      cases hys : xs ++ '\n' :: rest with
      | nil => exact absurd hys (by simp)
      | cons y ys =>
          have hxr2 : ¬ (x = '\r' ∧ y = '\n') := by
            intro hc
            rw [hc.1] at hx
            exact absurd hx (by decide)
          rw [List.cons_append, hys]
          show splitlinesAux (x :: y :: ys) acc = _
          rw [splitlinesAux]
          rw [if_neg hxr2, if_neg (by rw [hx]; exact Bool.false_ne_true)]
          rw [← hys, ih (x :: acc) hxs]
          simp [List.append_assoc]

theorem splitlinesAux_no_break (xs acc : Str)
    (h : ∀ c ∈ xs, isLineBreak c = false) :
    splitlinesAux xs acc =
      if (acc.reverse ++ xs).isEmpty then [] else [acc.reverse ++ xs] := by
  induction xs generalizing acc with
  | nil =>
      cases acc with
      | nil => rfl
      | cons a as => simp [splitlinesAux]
  | cons x xs ih =>
      have hx : isLineBreak x = false := h x (List.mem_cons_self x xs)
      have hxs : ∀ c ∈ xs, isLineBreak c = false :=
        fun c hc => h c (List.mem_cons_of_mem x hc)
      cases xs with
      | nil =>
          show splitlinesAux [x] acc = _
          rw [splitlinesAux, if_neg (by rw [hx]; exact Bool.false_ne_true)]
          simp
      | cons y ys =>
          have hy : isLineBreak y = false := hxs y (List.mem_cons_self y ys)
          have hxr2 : ¬ (x = '\r' ∧ y = '\n') := by
            intro hc
            rw [hc.1] at hx
            exact absurd hx (by decide)
          show splitlinesAux (x :: y :: ys) acc = _
          rw [splitlinesAux, if_neg hxr2, if_neg (by rw [hx]; exact Bool.false_ne_true)]
          rw [ih (x :: acc) hxs]
          simp [List.append_assoc]
theorem splitlines_mkLineResponse (t s d l : Str)
    (hbt : ∀ c ∈ t, isLineBreak c = false) (hbs : ∀ c ∈ s, isLineBreak c = false)
    (hbd : ∀ c ∈ d, isLineBreak c = false) (hbl : ∀ c ∈ l, isLineBreak c = false) :
    splitlines (mkLineResponse t s d l) =
      ["TRANSCRIPT:".data, t, "SUMMARY:".data, s, "TLDR:".data, d, "LANGUAGE:".data]
        ++ (if l.isEmpty then [] else [l]) := by
  have hdoc : mkLineResponse t s d l =
      "TRANSCRIPT:".data ++ '\n' :: (t ++ '\n' :: ("SUMMARY:".data ++ '\n' ::
        (s ++ '\n' :: ("TLDR:".data ++ '\n' :: (d ++ '\n' ::
          ("LANGUAGE:".data ++ '\n' :: l)))))) := by
    simp [mkLineResponse]
  rw [splitlines, hdoc]
  rw [splitlinesAux_append_nl _ _ _ (by decide)]
  rw [splitlinesAux_append_nl _ _ _ hbt]
  rw [splitlinesAux_append_nl _ _ _ (by decide)]
  rw [splitlinesAux_append_nl _ _ _ hbs]
  rw [splitlinesAux_append_nl _ _ _ (by decide)]
  rw [splitlinesAux_append_nl _ _ _ hbd]
  rw [splitlinesAux_append_nl _ _ _ (by decide)]
  rw [splitlinesAux_no_break _ _ hbl]
  simp
theorem lineStep_marker_t (st : Option FieldKey × LineBlock) :
    lineStep st "TRANSCRIPT:".data = (some FieldKey.tK, st.2) := rfl

theorem lineStep_marker_s (st : Option FieldKey × LineBlock) :
    lineStep st "SUMMARY:".data = (some FieldKey.sK, st.2) := rfl

theorem lineStep_marker_d (st : Option FieldKey × LineBlock) :
    lineStep st "TLDR:".data = (some FieldKey.dK, st.2) := rfl

theorem lineStep_marker_l (st : Option FieldKey × LineBlock) :
    lineStep st "LANGUAGE:".data = (some FieldKey.lK, st.2) := rfl

theorem lineStep_value (k : FieldKey) (b : LineBlock) (v : Str)
    (hm : pyStrip v ∉ markerStrings) :
    lineStep (some k, b) v = (some k, padApp k b v) := by
  obtain ⟨h1, h2, h3, h4⟩ :
      ¬ pyStrip v = "TRANSCRIPT:".data ∧ ¬ pyStrip v = "SUMMARY:".data ∧
      ¬ pyStrip v = "TLDR:".data ∧ ¬ pyStrip v = "LANGUAGE:".data := by
    simpa [markerStrings] using hm
  by_cases he : pyStrip v = []
  · simp [lineStep, he, padApp]
  · simp [lineStep, he, h1, h2, h3, h4, padApp]

theorem pyStrip_pad (v : Str) :
    pyStrip (if pyStrip v = [] then ([] : Str) else pyStrip v ++ [' ']) = pyStrip v := by
  by_cases he : pyStrip v = []
  · rw [if_pos he, he]
    rfl
  · rw [if_neg he, pyStrip_append_space]

theorem padApp_transcript (k : FieldKey) (b : LineBlock) (v : Str)
    (hk : k ≠ FieldKey.tK) : (padApp k b v).transcript = b.transcript := by
  cases k with
  | tK => exact absurd rfl hk
  | sK => by_cases he : pyStrip v = [] <;> simp [padApp, blockAppend, he]
  | dK => by_cases he : pyStrip v = [] <;> simp [padApp, blockAppend, he]
  | lK => by_cases he : pyStrip v = [] <;> simp [padApp, blockAppend, he]

theorem padApp_summary (k : FieldKey) (b : LineBlock) (v : Str)
    (hk : k ≠ FieldKey.sK) : (padApp k b v).summary = b.summary := by
  cases k with
  | sK => exact absurd rfl hk
  | tK => by_cases he : pyStrip v = [] <;> simp [padApp, blockAppend, he]
  | dK => by_cases he : pyStrip v = [] <;> simp [padApp, blockAppend, he]
  | lK => by_cases he : pyStrip v = [] <;> simp [padApp, blockAppend, he]

theorem padApp_tldr (k : FieldKey) (b : LineBlock) (v : Str)
    (hk : k ≠ FieldKey.dK) : (padApp k b v).tldr = b.tldr := by
  cases k with
  | dK => exact absurd rfl hk
  | tK => by_cases he : pyStrip v = [] <;> simp [padApp, blockAppend, he]
  | sK => by_cases he : pyStrip v = [] <;> simp [padApp, blockAppend, he]
  | lK => by_cases he : pyStrip v = [] <;> simp [padApp, blockAppend, he]

theorem padApp_language (k : FieldKey) (b : LineBlock) (v : Str)
    (hk : k ≠ FieldKey.lK) : (padApp k b v).language = b.language := by
  cases k with
  | lK => exact absurd rfl hk
  | tK => by_cases he : pyStrip v = [] <;> simp [padApp, blockAppend, he]
  | sK => by_cases he : pyStrip v = [] <;> simp [padApp, blockAppend, he]
  | dK => by_cases he : pyStrip v = [] <;> simp [padApp, blockAppend, he]

theorem padApp_transcript_self (b : LineBlock) (v : Str) (hb : b.transcript = []) :
    (padApp FieldKey.tK b v).transcript =
      if pyStrip v = [] then [] else pyStrip v ++ [' '] := by
  by_cases he : pyStrip v = [] <;> simp [padApp, blockAppend, he, hb]

theorem padApp_summary_self (b : LineBlock) (v : Str) (hb : b.summary = []) :
    (padApp FieldKey.sK b v).summary =
      if pyStrip v = [] then [] else pyStrip v ++ [' '] := by
  by_cases he : pyStrip v = [] <;> simp [padApp, blockAppend, he, hb]

theorem padApp_tldr_self (b : LineBlock) (v : Str) (hb : b.tldr = []) :
    (padApp FieldKey.dK b v).tldr =
      if pyStrip v = [] then [] else pyStrip v ++ [' '] := by
  by_cases he : pyStrip v = [] <;> simp [padApp, blockAppend, he, hb]

theorem padApp_language_self (b : LineBlock) (v : Str) (hb : b.language = []) :
    (padApp FieldKey.lK b v).language =
      if pyStrip v = [] then [] else pyStrip v ++ [' '] := by
  by_cases he : pyStrip v = [] <;> simp [padApp, blockAppend, he, hb]
/-- C10: for the same logical content — four field values without embedded
line breaks whose stripped forms are not themselves section markers —
parsing the line-oriented plain-text response built from the fixed markers
yields a result equal to parsing the structured JSON response carrying
that content (whatever raw text accompanies the JSON payload). -/
theorem parseOutput_fallback_equiv_structured (t s d l raw : Str)
    (hbt : ∀ c ∈ t, isLineBreak c = false) (hbs : ∀ c ∈ s, isLineBreak c = false)
    (hbd : ∀ c ∈ d, isLineBreak c = false) (hbl : ∀ c ∈ l, isLineBreak c = false)
    (hmt : pyStrip t ∉ markerStrings) (hms : pyStrip s ∉ markerStrings)
    (hmd : pyStrip d ∉ markerStrings) (hml : pyStrip l ∉ markerStrings) :
    parseOutput none (mkLineResponse t s d l) =
      parseOutput (some (mkJsonResponse t s d l)) raw := by
  have hrhs : parseOutput (some (mkJsonResponse t s d l)) raw =
      Except.ok ⟨pyStrip t, pyStrip s, pyStrip d, pyStrip l⟩ := rfl
  rw [hrhs]
  show Except.ok (parseLinesFallback (mkLineResponse t s d l)) = _
  have hfold : (splitlines (mkLineResponse t s d l)).foldl lineStep (none, emptyBlock) =
      (some FieldKey.lK,
        padApp FieldKey.lK
          (padApp FieldKey.dK
            (padApp FieldKey.sK (padApp FieldKey.tK emptyBlock t) s) d) l) := by
    rw [splitlines_mkLineResponse t s d l hbt hbs hbd hbl]
    by_cases hle : l.isEmpty = true
    · have hl0 : l = [] := List.isEmpty_iff.mp hle
      subst hl0
      simp only [List.isEmpty_nil, if_true, List.append_nil]
      rw [List.foldl_cons, lineStep_marker_t,
          List.foldl_cons, lineStep_value _ _ _ hmt,
          List.foldl_cons, lineStep_marker_s,
          List.foldl_cons, lineStep_value _ _ _ hms,
          List.foldl_cons, lineStep_marker_d,
          List.foldl_cons, lineStep_value _ _ _ hmd,
          List.foldl_cons, lineStep_marker_l,
          List.foldl_nil]
      rfl
    · rw [if_neg hle]
      simp only [List.cons_append, List.nil_append]
      rw [List.foldl_cons, lineStep_marker_t,
          List.foldl_cons, lineStep_value _ _ _ hmt,
          List.foldl_cons, lineStep_marker_s,
          List.foldl_cons, lineStep_value _ _ _ hms,
          List.foldl_cons, lineStep_marker_d,
          List.foldl_cons, lineStep_value _ _ _ hmd,
          List.foldl_cons, lineStep_marker_l,
          List.foldl_cons, lineStep_value _ _ _ hml,
          List.foldl_nil]
  have hB3l : (padApp FieldKey.dK
      (padApp FieldKey.sK (padApp FieldKey.tK emptyBlock t) s) d).language = [] := by
    rw [padApp_language _ _ _ (by decide), padApp_language _ _ _ (by decide),
        padApp_language _ _ _ (by decide)]
    rfl
  have hB2d : (padApp FieldKey.sK (padApp FieldKey.tK emptyBlock t) s).tldr = [] := by
    rw [padApp_tldr _ _ _ (by decide), padApp_tldr _ _ _ (by decide)]
    rfl
  have hB1s : (padApp FieldKey.tK emptyBlock t).summary = [] := by
    rw [padApp_summary _ _ _ (by decide)]
    rfl
  have hlines : parseLinesFallback (mkLineResponse t s d l) =
      ⟨pyStrip t, pyStrip s, pyStrip d, pyStrip l⟩ := by
    simp only [parseLinesFallback, hfold]
    rw [GeminiResult.mk.injEq]
    refine ⟨?_, ?_, ?_, ?_⟩
    · rw [padApp_transcript _ _ _ (by decide), padApp_transcript _ _ _ (by decide),
          padApp_transcript _ _ _ (by decide), padApp_transcript_self _ _ rfl,
          pyStrip_pad]
    · rw [padApp_summary _ _ _ (by decide), padApp_summary _ _ _ (by decide),
          padApp_summary_self _ _ hB1s, pyStrip_pad]
    · rw [padApp_tldr _ _ _ (by decide), padApp_tldr_self _ _ hB2d, pyStrip_pad]
    · rw [padApp_language_self _ _ hB3l, pyStrip_pad]
  rw [hlines]
/-- Witness for C10 at concrete content: the spec's stub response values. -/
theorem parseOutput_fallback_equiv_structured_w :
    parseOutput none
        (mkLineResponse "hello world".data "A greeting.".data "greeting".data "english".data) =
      parseOutput (some (mkJsonResponse "hello world".data "A greeting.".data
        "greeting".data "english".data)) "x".data :=
  parseOutput_fallback_equiv_structured "hello world".data "A greeting.".data
    "greeting".data "english".data "x".data
    (by decide) (by decide) (by decide) (by decide)
    (by decide) (by decide) (by decide) (by decide)
